import Mathlib

/-!
Verification of the logging and instrumentation core in
`src/NonOverlappingCodes/2009-Community-Infomap-MapEquation/src/utils/Logger.h`.

The header defines a leveled log handle (`Log`) gated by two process-wide
statics, a `hideIf` stream manipulator, an indentation tracker and a benchmark
recorder (`Logger`).  The definitions below are a shallow embedding of that
code: the static data members become explicit state records, stream output
becomes an explicit trace of written tokens, and the `unsigned int` arithmetic
of the indent counter is carried out modulo `2 ^ 32`.
-/

namespace InfomapLogger

/-- Largest value of the 32-bit C++ type `unsigned int`,
`std::numeric_limits<unsigned int>::max()`. -/
def UINT_MAX : Nat := 2 ^ 32 - 1

/-- The process-wide static data members of `Log`: `s_verboseLevel` and
`s_silent`.  `s_silent` is declared `unsigned int` in the source but only ever
stores the result of a `bool` assignment, so it is modelled as `Bool`. -/
structure GlobalLogConfig where
  s_verboseLevel : Nat
  s_silent : Bool
deriving DecidableEq

/-- The two output streams this header can reach: `std::cout` (the shared log
sink) and `std::cerr` (used only for the indent-underflow warning). -/
inductive OStream where
  | stdCout
  | stdCerr
deriving DecidableEq

/-- One token inserted into a stream with `operator<<`.  A `double` value is
represented by the text the sink renders it to. -/
inductive OutItem where
  | str (s : String)
  | uint (n : Nat)
  | dbl (s : String)
  | setprecision (p : Nat)
  | endl
deriving DecidableEq

/-- Observable state of the two standard streams: the token sequence written to
`std::cout`, the current sink-wide floating-point precision of `std::cout`
(changed by the `std::setprecision` manipulator), and the token sequence
written to `std::cerr`. -/
structure OutputState where
  cout : List OutItem
  coutPrecision : Nat
  cerr : List OutItem
deriving DecidableEq

/-- Writing one token to a stream appends it to that stream trace; writing
`std::setprecision(p)` to `std::cout` additionally updates the sink-wide
precision. -/
def writeTo (os : OStream) (st : OutputState) (it : OutItem) : OutputState :=
  match os with
  | OStream.stdCout =>
    { st with
      cout := st.cout ++ [it],
      coutPrecision := match it with | OutItem.setprecision p => p | _ => st.coutPrecision }
  | OStream.stdCerr => { st with cerr := st.cerr ++ [it] }

/-- The per-statement handle `class Log` with its four data members. -/
structure Log where
  m_level : Nat
  m_maxLevel : Nat
  m_visible : Bool
  m_ostream : OStream
deriving DecidableEq

/-- The static `Log::levelVisible(level, maxLevel)`:
`!s_silent && s_verboseLevel >= level && s_verboseLevel <= maxLevel`. -/
def Log.levelVisible (cfg : GlobalLogConfig) (level maxLevel : Nat) : Bool :=
  !cfg.s_silent && decide (cfg.s_verboseLevel ≥ level) && decide (cfg.s_verboseLevel ≤ maxLevel)

/-- `Log::getOutputStream(level, maxLevel)`: returns `std::cout` and ignores
both arguments. -/
def Log.getOutputStream (_level _maxLevel : Nat) : OStream :=
  OStream.stdCout

/-- The constructor `Log(level, maxLevel)`.  The default of the second argument
in the source is `std::numeric_limits<unsigned int>::max()`; callers of the
model pass `UINT_MAX` explicitly for it.  The global configuration is read once
here and the result stored in `m_visible`. -/
def Log.make (cfg : GlobalLogConfig) (level maxLevel : Nat) : Log :=
  { m_level := level
    m_maxLevel := maxLevel
    m_visible := Log.levelVisible cfg level maxLevel
    m_ostream := Log.getOutputStream level maxLevel }

/-- `Log::hide(value)`: recomputes `m_visible = !value && levelVisible()`,
where the member `levelVisible()` re-reads the global configuration at call
time. -/
def Log.hide (l : Log) (cfg : GlobalLogConfig) (value : Bool) : Log :=
  { l with m_visible := !value && Log.levelVisible cfg l.m_level l.m_maxLevel }

/-- The template overload `Log::operator<<(const T&)`: forwards the value to
the bound stream only when `m_visible` holds, and returns the same handle. -/
def Log.appendData (l : Log) (st : OutputState) (data : OutItem) : Log × OutputState :=
  if l.m_visible then (l, writeTo l.m_ostream st data) else (l, st)

/-- The overload `Log::operator<<(std::ostream& (*f)(std::ostream&))` for
stream manipulators such as `std::endl`: same gate, same returned handle. -/
def Log.appendManip (l : Log) (st : OutputState) (f : OutItem) : Log × OutputState :=
  if l.m_visible then (l, writeTo l.m_ostream st f) else (l, st)

/-- The manipulator `struct hideIf`, wrapping one boolean. -/
structure hideIf where
  hide : Bool
deriving DecidableEq

/-- The member overload `Log::operator<<(const hideIf&)` (Logger.h lines
85 to 88).  Its body is only `return *this;`: it never calls `hide`. -/
def Log.appendHideIfMember (l : Log) (_manip : hideIf) : Log :=
  l

/-- The friend overload `operator<<(Log& out, const hideIf& manip)` defined
inside `struct hideIf` (Logger.h lines 157 to 162): calls
`out.hide(manip.hide)` and returns the handle. -/
def hideIf.appendToLog (l : Log) (cfg : GlobalLogConfig) (manip : hideIf) : Log :=
  l.hide cfg manip.hide

/-- `Log::setVerboseLevel(level)`. -/
def Log.setVerboseLevel (cfg : GlobalLogConfig) (level : Nat) : GlobalLogConfig :=
  { cfg with s_verboseLevel := level }

/-- `Log::setSilent(silent)`. -/
def Log.setSilent (cfg : GlobalLogConfig) (silent : Bool) : GlobalLogConfig :=
  { cfg with s_silent := silent }

/-- `Log::init(verboseLevel, silent, numberPrecision)`: sets the two globals in
that order, then sends `std::setprecision(numberPrecision)` through a throwaway
default-constructed handle `Log()` (level 0, maxLevel `UINT_MAX`). -/
def Log.init (verboseLevel : Nat) (silent : Bool) (numberPrecision : Nat)
    (cfg : GlobalLogConfig) (st : OutputState) : GlobalLogConfig × OutputState :=
  let cfg1 := Log.setVerboseLevel cfg verboseLevel
  let cfg2 := Log.setSilent cfg1 silent
  let l := Log.make cfg2 0 UINT_MAX
  (cfg2, (l.appendData st (OutItem.setprecision numberPrecision)).2)

/-- The indentation state of `class Logger`: the statics `s_indentLevel` and
`s_indentString`.  `s_indentLevel` is a 32-bit `unsigned int`, so its value is
kept below `2 ^ 32`. -/
structure IndentState where
  s_indentLevel : Nat
  s_indentString : String
deriving DecidableEq

/-- Modelled from the spec: the static constant `Logger::s_indentWidth` is only
declared in the header; the translation unit defining its value is not among
the sources.  The spec describes it as a constant unsigned integer and uses 2
as its example value. -/
def s_indentWidth : Nat := 2

/-- Initial indentation state: static storage gives `s_indentLevel = 0` and an
empty `s_indentString` at process start. -/
def initIndentState : IndentState :=
  { s_indentLevel := 0, s_indentString := "" }

/-- `Logger::pushIndentLevel()`: `++s_indentLevel` on a 32-bit unsigned
counter. -/
def Logger.pushIndentLevel (st : IndentState) : IndentState :=
  { st with s_indentLevel := (st.s_indentLevel + 1) % 2 ^ 32 }

/-- The warning text `Logger::popIndentLevel` streams to `std::cerr` on
underflow, followed by `std::endl`. -/
def popWarning : List OutItem :=
  [OutItem.str "Warning: Calling Logger::popIndentLevel when already zero!", OutItem.endl]

/-- `Logger::popIndentLevel()`: decrements the level, except at level 0 where
it writes the warning to `std::cerr` and leaves the level unchanged. -/
def Logger.popIndentLevel (st : IndentState) (out : OutputState) : IndentState × OutputState :=
  if st.s_indentLevel = 0 then
    (st, { out with cerr := out.cerr ++ popWarning })
  else
    ({ st with s_indentLevel := st.s_indentLevel - 1 }, out)

/-- `Logger::indent()`: regenerates the cached string when its length differs
from `s_indentLevel * s_indentWidth` (a product of two `unsigned int` values,
hence reduced modulo `2 ^ 32`), then returns the cached string. -/
def Logger.indent (st : IndentState) : String × IndentState :=
  if st.s_indentString.length ≠ st.s_indentLevel * s_indentWidth % 2 ^ 32 then
    (String.mk (List.replicate (st.s_indentLevel * s_indentWidth % 2 ^ 32) ' '),
     { st with s_indentString := String.mk (List.replicate (st.s_indentLevel * s_indentWidth % 2 ^ 32) ' ') })
  else
    (st.s_indentString, st)

/-- `Logger::indentLevel()`. -/
def Logger.indentLevel (st : IndentState) : Nat :=
  st.s_indentLevel

/-- One call in a sequence of indentation operations: `pushIndentLevel()`,
`popIndentLevel()`, or a read of `indent()` (which may rewrite the cache). -/
inductive IndentOp where
  | push
  | pop
  | read
deriving DecidableEq

/-- Running a sequence of indentation calls against the indent state and the
stream state. -/
def Logger.runIndentOps (ops : List IndentOp) (s : IndentState × OutputState) :
    IndentState × OutputState :=
  match ops with
  | [] => s
  | IndentOp.push :: rest => Logger.runIndentOps rest (Logger.pushIndentLevel s.1, s.2)
  | IndentOp.pop :: rest => Logger.runIndentOps rest (Logger.popIndentLevel s.1 s.2)
  | IndentOp.read :: rest => Logger.runIndentOps rest ((Logger.indent s.1).2, s.2)

/-- The state of the benchmark recorder: whether the function-local static
`SafeOutFile` of `Logger::benchmark` has been initialized yet, whether that
one-time open succeeded, and the text appended to the file so far. -/
structure BenchState where
  openAttempted : Bool
  isOpen : Bool
  contents : String
deriving DecidableEq

/-- `Logger::benchmark(tag, codelength, numTopModules, numNonTrivialTopModules,
numLevels, writeOnlyTag)`.  The static local file object is initialized exactly
once, on the first call; `openResult` is the outcome the filesystem would give
that one open, consulted only then.  `elapsed` and `codelength` carry the text
the stream renders the two `double` values to. -/
def Logger.benchmark (openResult : Bool) (st : BenchState) (elapsed tag codelength : String)
    (numTopModules numNonTrivialTopModules numLevels : Nat) (writeOnlyTag : Bool) :
    BenchState :=
  let st1 := if st.openAttempted then st
             else { st with openAttempted := true, isOpen := openResult }
  if st1.isOpen then
    if writeOnlyTag then
      { st1 with contents := st1.contents ++ tag ++ "\n" }
    else
      { st1 with contents := st1.contents ++ elapsed ++ "\t" ++ tag ++ "\t" ++ codelength
          ++ "\t" ++ Nat.repr numTopModules ++ "\t" ++ Nat.repr numNonTrivialTopModules
          ++ "\t" ++ Nat.repr numLevels ++ "\n" }
  else st1

/-- Splitting a character list at every occurrence of a separator character.
The result always has one more part than there are separator occurrences, so
its length is the field count of a tab-separated record. -/
def splitOnChar (c : Char) : List Char → List (List Char)
  | [] => [[]]
  | x :: xs =>
    if x = c then [] :: splitOnChar c xs
    else
      match splitOnChar c xs with
      | [] => [[x]]
      | y :: ys => (x :: y) :: ys

/-! Helper lemmas about the character splitter. -/

theorem splitOnChar_ne_nil (c : Char) (l : List Char) : splitOnChar c l ≠ [] := by
  cases l with
  | nil => simp [splitOnChar]
  | cons x xs =>
    simp only [splitOnChar]
    split
    · simp
    · split <;> simp

theorem splitOnChar_cons_self (c : Char) (xs : List Char) :
    splitOnChar c (c :: xs) = [] :: splitOnChar c xs := by
  simp [splitOnChar]

theorem splitOnChar_single (c : Char) (a : List Char) (h : c ∉ a) :
    splitOnChar c a = [a] := by
  induction a with
  | nil => rfl
  | cons x a ih =>
    have hx : ¬ x = c := fun e => h (by simp [e])
    have ha : c ∉ a := fun m => h (List.mem_cons_of_mem _ m)
    simp [splitOnChar, hx, ih ha]

theorem splitOnChar_append (c : Char) (a ys y : List Char)
    (yt : List (List Char)) (h : c ∉ a) (hy : splitOnChar c ys = y :: yt) :
    splitOnChar c (a ++ ys) = (a ++ y) :: yt := by
  induction a with
  | nil => simpa using hy
  | cons x a ih =>
    have hx : ¬ x = c := fun e => h (by simp [e])
    have ha : c ∉ a := fun m => h (List.mem_cons_of_mem _ m)
    simp [splitOnChar, hx, ih ha]

theorem splitOnChar_field (c : Char) (a rest y : List Char)
    (yt : List (List Char)) (h : c ∉ a) (hr : splitOnChar c rest = y :: yt) :
    splitOnChar c (a ++ c :: rest) = a :: y :: yt := by
  have h1 : splitOnChar c (c :: rest) = [] :: y :: yt := by
    rw [splitOnChar_cons_self, hr]
  simpa using splitOnChar_append c a (c :: rest) [] (y :: yt) h h1

/-! Helper lemmas showing that the decimal rendering of an unsigned integer
contains neither a tab nor a newline character. -/

theorem digitChar_ne_tab_newline (m : Nat) :
    Nat.digitChar m ≠ '\t' ∧ Nat.digitChar m ≠ '\n' := by
  by_cases h : m < 16
  · interval_cases m <;> exact ⟨by decide, by decide⟩
  · have e : Nat.digitChar m = '*' := by
      unfold Nat.digitChar
      rw [if_neg (show ¬m = 0 by omega), if_neg (show ¬m = 1 by omega),
        if_neg (show ¬m = 2 by omega), if_neg (show ¬m = 3 by omega),
        if_neg (show ¬m = 4 by omega), if_neg (show ¬m = 5 by omega),
        if_neg (show ¬m = 6 by omega), if_neg (show ¬m = 7 by omega),
        if_neg (show ¬m = 8 by omega), if_neg (show ¬m = 9 by omega),
        if_neg (show ¬m = 10 by omega), if_neg (show ¬m = 11 by omega),
        if_neg (show ¬m = 12 by omega), if_neg (show ¬m = 13 by omega),
        if_neg (show ¬m = 14 by omega), if_neg (show ¬m = 15 by omega)]
    rw [e]
    exact ⟨by decide, by decide⟩

theorem toDigitsCore_ne_tab_newline (b fuel n : Nat) (ds : List Char)
    (hds : ∀ ch ∈ ds, ch ≠ '\t' ∧ ch ≠ '\n') :
    ∀ ch ∈ Nat.toDigitsCore b fuel n ds, ch ≠ '\t' ∧ ch ≠ '\n' := by
  induction fuel generalizing n ds with
  | zero =>
    intro ch hch
    simp only [Nat.toDigitsCore] at hch
    exact hds ch hch
  | succ fuel ih =>
    intro ch hch
    simp only [Nat.toDigitsCore] at hch
    split at hch
    · rcases List.mem_cons.mp hch with h | h
      · exact h ▸ digitChar_ne_tab_newline _
      · exact hds ch h
    · refine ih _ _ (fun c hc => ?_) ch hch
      rcases List.mem_cons.mp hc with h | h
      · exact h ▸ digitChar_ne_tab_newline _
      · exact hds c h

theorem repr_ne_tab_newline (n : Nat) :
    ∀ ch ∈ (Nat.repr n).data, ch ≠ '\t' ∧ ch ≠ '\n' := by
  intro ch hch
  have hdata : (Nat.repr n).data = Nat.toDigits 10 n := rfl
  rw [hdata, Nat.toDigits] at hch
  refine toDigitsCore_ne_tab_newline 10 (n + 1) n [] (fun c hc => ?_) ch hch
  simp at hc

/-! Helper lemmas about sequences of indentation calls. -/

theorem strLength_mk (l : List Char) : (String.mk l).length = l.length := rfl

theorem runIndentOps_append (a b : List IndentOp) (s : IndentState × OutputState) :
    Logger.runIndentOps (a ++ b) s = Logger.runIndentOps b (Logger.runIndentOps a s) := by
  induction a generalizing s with
  | nil => rfl
  | cons op rest ih =>
    cases op <;> simp [Logger.runIndentOps, ih]

theorem runIndentOps_pushes (n lv : Nat) (str : String) (ost : OutputState)
    (h : lv < 2 ^ 32) :
    Logger.runIndentOps (List.replicate n IndentOp.push) (⟨lv, str⟩, ost)
      = (⟨(lv + n) % 2 ^ 32, str⟩, ost) := by
  induction n generalizing lv with
  | zero => simp only [List.replicate, Logger.runIndentOps, Nat.add_zero, Nat.mod_eq_of_lt h]
  | succ n ih =>
    have h1 : (lv + 1) % 2 ^ 32 < 2 ^ 32 := Nat.mod_lt _ (by norm_num)
    have step : Logger.runIndentOps (List.replicate (n + 1) IndentOp.push) (⟨lv, str⟩, ost)
        = Logger.runIndentOps (List.replicate n IndentOp.push) (⟨(lv + 1) % 2 ^ 32, str⟩, ost) := by
      simp [List.replicate_succ, Logger.runIndentOps, Logger.pushIndentLevel]
    rw [step, ih _ h1, Nat.mod_add_mod, Nat.add_assoc, Nat.add_comm 1 n]

theorem runIndentOps_pops (n lv : Nat) (str : String) (ost : OutputState) :
    (Logger.runIndentOps (List.replicate n IndentOp.pop) (⟨lv, str⟩, ost)).1
      = ⟨lv - n, str⟩ := by
  induction n generalizing lv ost with
  | zero => simp [Logger.runIndentOps]
  | succ n ih =>
    simp only [List.replicate_succ, Logger.runIndentOps, Logger.popIndentLevel]
    split
    · rename_i h0
      have h0' : lv = 0 := h0
      subst h0'
      rw [ih]
      simp
    · rw [ih]
      simp [Nat.sub_sub, Nat.add_comm]

theorem runIndentOps_string_spaces (ops : List IndentOp) (st : IndentState) (ost : OutputState)
    (h : ∃ k, st.s_indentString = String.mk (List.replicate k ' ')) :
    ∃ k, (Logger.runIndentOps ops (st, ost)).1.s_indentString
      = String.mk (List.replicate k ' ') := by
  induction ops generalizing st ost with
  | nil => exact h
  | cons op rest ih =>
    cases op with
    | push =>
      exact ih _ _ (by simpa [Logger.pushIndentLevel] using h)
    | pop =>
      simp only [Logger.runIndentOps, Logger.popIndentLevel]
      split
      · exact ih _ _ h
      · exact ih _ _ (by simpa using h)
    | read =>
      simp only [Logger.runIndentOps, Logger.indent]
      split
      · exact ih _ _ ⟨_, rfl⟩
      · exact ih _ _ h

theorem indent_of_spaces (st : IndentState)
    (h : ∃ k, st.s_indentString = String.mk (List.replicate k ' ')) :
    (Logger.indent st).1
      = String.mk (List.replicate (st.s_indentLevel * s_indentWidth % 2 ^ 32) ' ') := by
  obtain ⟨k, hk⟩ := h
  simp only [Logger.indent]
  split
  · rfl
  · rename_i hlen
    have hlen2 : st.s_indentString.length = st.s_indentLevel * s_indentWidth % 2 ^ 32 :=
      not_ne_iff.mp hlen
    have hkk : k = st.s_indentLevel * s_indentWidth % 2 ^ 32 := by
      rw [hk, strLength_mk, List.length_replicate] at hlen2
      exact hlen2
    rw [hk, hkk]

/-! Claim theorems. -/

/-- Claim C1: a handle constructed as `Log(level, maxLevel)` gets
`visible = !silent && level <= verboseLevel && verboseLevel <= maxLevel`,
evaluated against the global configuration at construction; with
`silent = false` and the default `maxLevel = UINT_MAX`, the handle is visible
iff `level <= verboseLevel`; and `silent = true` makes every newly constructed
handle invisible. -/
theorem C1_construction_visibility (cfg : GlobalLogConfig) (level maxLevel : Nat) :
    (Log.make cfg level maxLevel).m_visible
      = (!cfg.s_silent && decide (level ≤ cfg.s_verboseLevel)
          && decide (cfg.s_verboseLevel ≤ maxLevel))
    ∧ (cfg.s_silent = false → cfg.s_verboseLevel ≤ UINT_MAX →
        (Log.make cfg level UINT_MAX).m_visible = decide (level ≤ cfg.s_verboseLevel))
    ∧ (cfg.s_silent = true → (Log.make cfg level maxLevel).m_visible = false) := by
  refine ⟨?_, ?_, ?_⟩
  · simp [Log.make, Log.levelVisible, ge_iff_le]
  · intro hs hv
    simp [Log.make, Log.levelVisible, hs, hv, ge_iff_le]
  · intro hs
    simp [Log.make, Log.levelVisible, hs]

/-- Claim C1 witness: with `verboseLevel = 1`, `silent = false`, a level-0
handle with default maxLevel is visible; with `silent = true` a handle is
invisible. -/
theorem C1_construction_visibility_witness :
    (Log.make ⟨1, false⟩ 0 UINT_MAX).m_visible = decide ((0 : Nat) ≤ 1)
    ∧ (Log.make ⟨1, true⟩ 2 7).m_visible = false :=
  ⟨(C1_construction_visibility ⟨1, false⟩ 0 UINT_MAX).2.1 rfl (by norm_num [UINT_MAX]),
   (C1_construction_visibility ⟨1, true⟩ 2 7).2.2 rfl⟩

/-- Claim C4: `hide(true)` then `hide(false)` restores `visible` exactly when
the level/silence gate is satisfied; when the gate is not satisfied, `hide`
with either argument leaves the handle completely unchanged (it stays
invisible), so explicit hiding can only narrow visibility. -/
theorem C4_hide_narrows (cfg : GlobalLogConfig) (level maxLevel : Nat) :
    (((Log.make cfg level maxLevel).hide cfg true).hide cfg false).m_visible
      = Log.levelVisible cfg level maxLevel
    ∧ (Log.levelVisible cfg level maxLevel = false →
        (Log.make cfg level maxLevel).hide cfg true = Log.make cfg level maxLevel
        ∧ (Log.make cfg level maxLevel).hide cfg false = Log.make cfg level maxLevel) := by
  constructor
  · simp [Log.hide, Log.make]
  · intro h
    constructor <;> simp [Log.hide, Log.make, h]

/-- Claim C4 witness: a level-1 handle under `verboseLevel = 0` fails exactly
the gate, and `hide(false)` cannot make it visible. -/
theorem C4_hide_narrows_witness :
    (Log.make ⟨0, false⟩ 1 UINT_MAX).hide ⟨0, false⟩ false = Log.make ⟨0, false⟩ 1 UINT_MAX :=
  ((C4_hide_narrows ⟨0, false⟩ 1 UINT_MAX).2 (by decide)).2

/-- Claim C7: once the one-time lazy open of the benchmark file has failed,
every later `benchmark(...)` call returns the state unchanged: nothing is
appended, the open is not retried, and no error is surfaced (the model is a
total function into the state type). -/
theorem C7_benchmark_noop (st : BenchState) (openResult : Bool)
    (elapsed tag codelength : String) (a b c : Nat) (w : Bool)
    (h1 : st.openAttempted = true) (h2 : st.isOpen = false) :
    Logger.benchmark openResult st elapsed tag codelength a b c w = st := by
  simp [Logger.benchmark, h1, h2]

/-- Claim C7 witness: a concrete call against a failed-open state is the
identity. -/
theorem C7_benchmark_noop_witness :
    Logger.benchmark true ⟨true, false, "x"⟩ "0.1" "t" "3.5" 1 2 3 false
      = ⟨true, false, "x"⟩ :=
  C7_benchmark_noop ⟨true, false, "x"⟩ true "0.1" "t" "3.5" 1 2 3 false rfl rfl

/-- Claim C8: `popIndentLevel` at depth 0 leaves the depth at 0 and emits the
diagnostic to `std::cerr` only (the normal log sink `std::cout` is untouched);
at depth greater than 0 it decrements the depth by exactly 1 and writes
nothing; in all cases it is a total function (it never aborts). -/
theorem C8_pop_underflow (st : IndentState) (out : OutputState) :
    (st.s_indentLevel = 0 →
      Logger.popIndentLevel st out = (st, { out with cerr := out.cerr ++ popWarning }))
    ∧ (0 < st.s_indentLevel →
      Logger.popIndentLevel st out = ({ st with s_indentLevel := st.s_indentLevel - 1 }, out))
    ∧ (Logger.popIndentLevel st out).1.s_indentLevel = st.s_indentLevel - 1
    ∧ (Logger.popIndentLevel st out).2.cout = out.cout := by
  refine ⟨fun h0 => ?_, fun hp => ?_, ?_, ?_⟩
  · simp [Logger.popIndentLevel, h0]
  · simp [Logger.popIndentLevel, Nat.pos_iff_ne_zero.mp hp]
  · simp only [Logger.popIndentLevel]
    split
    · rename_i h
      simp [h]
    · rfl
  · simp only [Logger.popIndentLevel]
    split <;> rfl

/-- Claim C8 witness: a pop at depth 0 warns on `std::cerr` and keeps depth 0;
a pop at depth 3 decrements to 2 silently. -/
theorem C8_pop_underflow_witness :
    Logger.popIndentLevel ⟨0, ""⟩ ⟨[], 6, []⟩ = (⟨0, ""⟩, ⟨[], 6, popWarning⟩)
    ∧ Logger.popIndentLevel ⟨3, ""⟩ ⟨[], 6, []⟩ = (⟨2, ""⟩, ⟨[], 6, []⟩) :=
  ⟨(C8_pop_underflow ⟨0, ""⟩ ⟨[], 6, []⟩).1 rfl,
   (C8_pop_underflow ⟨3, ""⟩ ⟨[], 6, []⟩).2.1 (by norm_num)⟩

/-- Claim C9: appending a value to a handle writes nothing and changes no state
when `visible` is false, forwards the value to the bound sink when `visible` is
true, and in both cases returns the same handle; the manipulator overload is
gated identically. -/
theorem C9_append_gate (l : Log) (st : OutputState) (it : OutItem) :
    ((l.appendData st it).1 = l ∧ (l.appendManip st it).1 = l)
    ∧ (l.m_visible = false → (l.appendData st it).2 = st ∧ (l.appendManip st it).2 = st)
    ∧ (l.m_visible = true →
        (l.appendData st it).2 = writeTo l.m_ostream st it
        ∧ (l.appendManip st it).2 = writeTo l.m_ostream st it
        ∧ (l.m_ostream = OStream.stdCout → (l.appendData st it).2.cout = st.cout ++ [it])) := by
  refine ⟨⟨?_, ?_⟩, fun h => ⟨?_, ?_⟩, fun h => ⟨?_, ?_, fun ho => ?_⟩⟩
  · cases hv : l.m_visible <;> simp [Log.appendData, hv]
  · cases hv : l.m_visible <;> simp [Log.appendManip, hv]
  · simp [Log.appendData, h]
  · simp [Log.appendManip, h]
  · simp [Log.appendData, h]
  · simp [Log.appendManip, h]
  · simp [Log.appendData, h, ho, writeTo]

/-- Claim C9 witness: an invisible handle appends nothing; a visible handle
appends exactly the value. -/
theorem C9_append_gate_witness :
    ((⟨0, 0, false, OStream.stdCout⟩ : Log).appendData ⟨[], 6, []⟩ (OutItem.str "x")).2
      = ⟨[], 6, []⟩
    ∧ ((⟨0, 0, true, OStream.stdCout⟩ : Log).appendData ⟨[], 6, []⟩ (OutItem.str "x")).2.cout
      = [OutItem.str "x"] :=
  ⟨((C9_append_gate ⟨0, 0, false, OStream.stdCout⟩ ⟨[], 6, []⟩ (OutItem.str "x")).2.1 rfl).1,
   ((C9_append_gate ⟨0, 0, true, OStream.stdCout⟩ ⟨[], 6, []⟩ (OutItem.str "x")).2.2 rfl).2.2 rfl⟩

/-- Claim C10: `getOutputStream(level, maxLevel)` ignores both arguments and
returns `std::cout`; every constructed handle is bound to that sink, so handle
appends and `Log::init` never write to `std::cerr`; the only `std::cerr`
output of this core is the indent-underflow diagnostic. -/
theorem C10_single_sink (level maxLevel : Nat) (cfg : GlobalLogConfig) (st : OutputState)
    (it : OutItem) :
    Log.getOutputStream level maxLevel = OStream.stdCout
    ∧ (Log.make cfg level maxLevel).m_ostream = OStream.stdCout
    ∧ ((Log.make cfg level maxLevel).appendData st it).2.cerr = st.cerr
    ∧ ((Log.make cfg level maxLevel).appendManip st it).2.cerr = st.cerr
    ∧ (∀ vl sil p, (Log.init vl sil p cfg st).2.cerr = st.cerr)
    ∧ (∀ ist : IndentState, ist.s_indentLevel = 0 →
        (Logger.popIndentLevel ist st).2.cerr = st.cerr ++ popWarning) := by
  refine ⟨rfl, rfl, ?_, ?_, ?_, ?_⟩
  · simp only [Log.appendData]
    split <;> simp [writeTo, Log.make, Log.getOutputStream]
  · simp only [Log.appendManip]
    split <;> simp [writeTo, Log.make, Log.getOutputStream]
  · intro vl sil p
    simp only [Log.init, Log.appendData]
    split <;> simp [writeTo, Log.make, Log.getOutputStream]
  · intro ist h0
    simp [Logger.popIndentLevel, h0]

/-- Claim C10 witness: the underflow diagnostic conjunct applied at a concrete
zero-depth state. -/
theorem C10_single_sink_witness :
    (Logger.popIndentLevel ⟨0, ""⟩ ⟨[], 6, []⟩).2.cerr = popWarning :=
  (C10_single_sink 0 0 ⟨0, false⟩ ⟨[], 6, []⟩ OutItem.endl).2.2.2.2.2 ⟨0, ""⟩ rfl

/-- Claim C2 counterexample: `init(0, true, 6)` does not apply the precision —
the throwaway handle is invisible under `silent = true`, so the
`std::setprecision` directive is dropped and the sink state is unchanged,
refuting the claim for this combination of arguments. -/
theorem C2_precision_counterexample :
    (Log.init 0 true 6 ⟨0, false⟩ ⟨[], 0, []⟩).2 = ⟨[], 0, []⟩
    ∧ (Log.init 0 true 6 ⟨0, false⟩ ⟨[], 0, []⟩).2.coutPrecision ≠ 6 := by
  constructor <;> decide

/-- Claim C2 amended: `init(level, silent, precision)` always sets the global
verbosity level and silence flag first; the precision directive is then
written through the throwaway handle and takes effect sink-wide exactly when
that handle is visible under the new configuration — in particular whenever
`silent = false`; with `silent = true` the directive is suppressed and the
sink is unchanged. -/
theorem C2_precision_amended (vl p : Nat) (cfg : GlobalLogConfig) (st : OutputState)
    (hv : vl ≤ UINT_MAX) :
    (∀ sil, (Log.init vl sil p cfg st).1 = ⟨vl, sil⟩)
    ∧ (Log.init vl false p cfg st).2.coutPrecision = p
    ∧ (Log.init vl false p cfg st).2.cout = st.cout ++ [OutItem.setprecision p]
    ∧ (Log.init vl true p cfg st).2 = st := by
  refine ⟨fun sil => rfl, ?_, ?_, ?_⟩
  · simp [Log.init, Log.setVerboseLevel, Log.setSilent, Log.appendData, Log.make,
      Log.levelVisible, Log.getOutputStream, hv, writeTo]
  · simp [Log.init, Log.setVerboseLevel, Log.setSilent, Log.appendData, Log.make,
      Log.levelVisible, Log.getOutputStream, hv, writeTo]
  · simp [Log.init, Log.setVerboseLevel, Log.setSilent, Log.appendData, Log.make,
      Log.levelVisible, Log.getOutputStream]

/-- Claim C2 amended witness: `init(1, false, 6)` sets the sink-wide precision
to 6. -/
theorem C2_precision_amended_witness :
    (Log.init 1 false 6 ⟨0, false⟩ ⟨[], 0, []⟩).2.coutPrecision = 6 :=
  (C2_precision_amended 1 6 ⟨0, false⟩ ⟨[], 0, []⟩ (by norm_num [UINT_MAX])).2.1

/-- Claim C3: the member overload `Log::operator<<(const hideIf&)` (Logger.h
lines 85 to 88) returns the handle without calling `hide`.  C++ overload
resolution selects it over the friend operator whenever the handle is a
prvalue (for an lvalue handle the two overloads are ambiguous and the program
is ill-formed), so appending a `hideIf(true)` token leaves a visible handle
visible and the next appended value is still written — the friend overload,
which the claim describes, would have suppressed it. -/
theorem C3_hideIf_member_noop :
    Log.appendHideIfMember (Log.make ⟨1, false⟩ 0 UINT_MAX) ⟨true⟩
      = Log.make ⟨1, false⟩ 0 UINT_MAX
    ∧ ((Log.appendHideIfMember (Log.make ⟨1, false⟩ 0 UINT_MAX) ⟨true⟩).appendData
        ⟨[], 6, []⟩ (OutItem.str "after-token")).2.cout = [OutItem.str "after-token"]
    ∧ ((hideIf.appendToLog (Log.make ⟨1, false⟩ 0 UINT_MAX) ⟨1, false⟩ ⟨true⟩).appendData
        ⟨[], 6, []⟩ (OutItem.str "after-token")).2.cout = [] := by
  refine ⟨rfl, ?_, ?_⟩ <;> decide

/-- Claim C5 counterexample: the 32-bit `unsigned int` arithmetic breaks the
claim on long sequences.  After `2 ^ 31` pushes the depth is `2 ^ 31` but
`indent()` returns the empty string, not `depth * width` spaces (the product
wraps to 0); and starting from depth 1 with cached text two spaces, performing
`2 ^ 32 - 1` pushes (wrapping the depth to 0) followed by `2 ^ 32 - 1` pops
leaves the empty indent text instead of restoring the original. -/
theorem C5_indent_counterexample :
    (Logger.indent (Logger.runIndentOps (List.replicate (2 ^ 31) IndentOp.push)
        (initIndentState, ⟨[], 6, []⟩)).1).1.length = 0
    ∧ Logger.indentLevel (Logger.runIndentOps (List.replicate (2 ^ 31) IndentOp.push)
        (initIndentState, ⟨[], 6, []⟩)).1 * s_indentWidth = 2 ^ 32
    ∧ (Logger.indent (Logger.pushIndentLevel initIndentState)).1 = "  "
    ∧ (Logger.indent (Logger.runIndentOps
          (List.replicate (2 ^ 32 - 1) IndentOp.push ++ List.replicate (2 ^ 32 - 1) IndentOp.pop)
          ((Logger.indent (Logger.pushIndentLevel initIndentState)).2, ⟨[], 6, []⟩)).1).1
      = "" := by
  have hpush : Logger.runIndentOps (List.replicate (2 ^ 31) IndentOp.push)
      (initIndentState, ⟨[], 6, []⟩) = (⟨2 ^ 31, ""⟩, ⟨[], 6, []⟩) := by
    rw [show initIndentState = (⟨0, ""⟩ : IndentState) from rfl,
      runIndentOps_pushes (2 ^ 31) 0 "" ⟨[], 6, []⟩ (by norm_num)]
    norm_num
  refine ⟨?_, ?_, by decide, ?_⟩
  · rw [hpush]
    simp [Logger.indent, s_indentWidth, strLength_mk]
  · rw [hpush]
    simp [Logger.indentLevel, s_indentWidth]
  · have h1 : (Logger.indent (Logger.pushIndentLevel initIndentState)).2
        = (⟨1, "  "⟩ : IndentState) := by decide
    rw [h1, runIndentOps_append,
      runIndentOps_pushes (2 ^ 32 - 1) 1 "  " ⟨[], 6, []⟩ (by norm_num),
      show (1 + (2 ^ 32 - 1)) % 2 ^ 32 = 0 by norm_num,
      runIndentOps_pops]
    decide

/-- Claim C5 amended: along every push/pop/read sequence from the initial
indentation state, `indent()` returns exactly
`depth * width mod 2 ^ 32` space characters (the product is `unsigned int`
arithmetic), the depth is clamped at zero, and N pops immediately after N
pushes restore the state — hence the original indent text — provided the
pushes do not wrap the 32-bit depth counter. -/
theorem C5_indent_amended (ops : List IndentOp) (ost ost2 : OutputState)
    (st : IndentState) (h : Logger.runIndentOps ops (initIndentState, ost) = (st, ost2)) :
    (Logger.indent st).1
      = String.mk (List.replicate (st.s_indentLevel * s_indentWidth % 2 ^ 32) ' ')
    ∧ (Logger.indent st).1.length = st.s_indentLevel * s_indentWidth % 2 ^ 32
    ∧ (∀ ost3, (Logger.popIndentLevel st ost3).1.s_indentLevel = st.s_indentLevel - 1)
    ∧ (∀ n, st.s_indentLevel + n < 2 ^ 32 →
        (Logger.runIndentOps
          (List.replicate n IndentOp.push ++ List.replicate n IndentOp.pop) (st, ost2)).1
          = st) := by
  have hsp : ∃ k, st.s_indentString = String.mk (List.replicate k ' ') := by
    have hh := runIndentOps_string_spaces ops initIndentState ost ⟨0, rfl⟩
    rw [h] at hh
    exact hh
  refine ⟨indent_of_spaces st hsp, ?_, ?_, ?_⟩
  · rw [indent_of_spaces st hsp, strLength_mk, List.length_replicate]
  · intro ost3
    simp only [Logger.popIndentLevel]
    split
    · rename_i h0
      simp [h0]
    · rfl
  · intro n hn
    obtain ⟨lv, str⟩ := st
    have hn' : lv + n < 2 ^ 32 := hn
    rw [runIndentOps_append, runIndentOps_pushes n lv str ost2 (by omega),
      Nat.mod_eq_of_lt hn', runIndentOps_pops]
    simp

/-- Claim C5 amended witness: from the reachable state at depth 2 with cached
text four spaces, one push followed by one pop restores the state. -/
theorem C5_indent_amended_witness :
    (Logger.runIndentOps (List.replicate 1 IndentOp.push ++ List.replicate 1 IndentOp.pop)
        (⟨2, "    "⟩, ⟨[], 6, []⟩)).1 = ⟨2, "    "⟩ :=
  (C5_indent_amended [IndentOp.push, IndentOp.push, IndentOp.read] ⟨[], 6, []⟩ ⟨[], 6, []⟩
    ⟨2, "    "⟩ (by decide)).2.2.2 1 (by norm_num)

/-- Claim C6 counterexample: the field structure is not guaranteed for every
tag.  With the tag `"a\tb"` the non-tag-only record has seven tab-separated
fields, not six; and with the tag `"x\ny"` the tag-only call appends text
containing two newlines, not one newline-terminated line. -/
theorem C6_benchmark_counterexample :
    (splitOnChar '\t'
        ((Logger.benchmark true ⟨true, true, ""⟩ "0.5" "a\tb" "3.14" 5 4 2 false).contents.data.dropLast)).length
      = 7
    ∧ ((Logger.benchmark true ⟨true, true, ""⟩ "0.5" "x\ny" "3.14" 5 4 2 true).contents.data.count '\n')
      = 2 := by
  constructor <;> decide

/-- Claim C6 amended: when the benchmark file is open and the textual fields
(`tag` and the renderings of the two double values) contain no tab and no
newline, `benchmark` appends exactly one newline-terminated line: only `tag`
(one tab-field) when `writeOnlyTag` is true, and otherwise a line whose
tab-separated fields are exactly elapsed seconds, `tag`, `codelength`,
`numTopModules`, `numNonTrivialTopModules`, `numLevels`, in that order (the
three `unsigned int` renderings are tab- and newline-free by construction). -/
theorem C6_benchmark_amended (openResult : Bool) (st : BenchState)
    (elapsed tag codelength : String) (a b c : Nat)
    (h1 : st.openAttempted = true) (h2 : st.isOpen = true)
    (he : ∀ ch ∈ elapsed.data, ch ≠ '\t' ∧ ch ≠ '\n')
    (ht : ∀ ch ∈ tag.data, ch ≠ '\t' ∧ ch ≠ '\n')
    (hc : ∀ ch ∈ codelength.data, ch ≠ '\t' ∧ ch ≠ '\n') :
    ((Logger.benchmark openResult st elapsed tag codelength a b c true).contents.data
        = st.contents.data ++ (tag.data ++ ['\n'])
      ∧ (∀ ch ∈ tag.data, ch ≠ '\n')
      ∧ splitOnChar '\t' tag.data = [tag.data])
    ∧ ∃ body : List Char,
        (Logger.benchmark openResult st elapsed tag codelength a b c false).contents.data
          = st.contents.data ++ (body ++ ['\n'])
        ∧ (∀ ch ∈ body, ch ≠ '\n')
        ∧ splitOnChar '\t' body
          = [elapsed.data, tag.data, codelength.data,
              (Nat.repr a).data, (Nat.repr b).data, (Nat.repr c).data] := by
  have hte : '\t' ∉ elapsed.data := fun m => (he _ m).1 rfl
  have htt : '\t' ∉ tag.data := fun m => (ht _ m).1 rfl
  have htc : '\t' ∉ codelength.data := fun m => (hc _ m).1 rfl
  have hra : '\t' ∉ (Nat.repr a).data := fun m => (repr_ne_tab_newline a _ m).1 rfl
  have hrb : '\t' ∉ (Nat.repr b).data := fun m => (repr_ne_tab_newline b _ m).1 rfl
  have hrc : '\t' ∉ (Nat.repr c).data := fun m => (repr_ne_tab_newline c _ m).1 rfl
  constructor
  · refine ⟨?_, fun ch m => (ht ch m).2, splitOnChar_single _ _ htt⟩
    have hcontents : (Logger.benchmark openResult st elapsed tag codelength a b c true).contents
        = st.contents ++ tag ++ "\n" := by
      simp [Logger.benchmark, h1, h2]
    rw [hcontents]
    simp [show ("\n" : String).data = ['\n'] from rfl, List.append_assoc]
  · refine ⟨elapsed.data ++ '\t' :: (tag.data ++ '\t' :: (codelength.data ++ '\t' ::
      ((Nat.repr a).data ++ '\t' :: ((Nat.repr b).data ++ '\t' :: (Nat.repr c).data)))),
      ?_, ?_, ?_⟩
    · have hcontents : (Logger.benchmark openResult st elapsed tag codelength a b c false).contents
          = st.contents ++ elapsed ++ "\t" ++ tag ++ "\t" ++ codelength ++ "\t"
            ++ Nat.repr a ++ "\t" ++ Nat.repr b ++ "\t" ++ Nat.repr c ++ "\n" := by
        simp [Logger.benchmark, h1, h2]
      rw [hcontents]
      simp [show ("\t" : String).data = ['\t'] from rfl,
        show ("\n" : String).data = ['\n'] from rfl, List.append_assoc]
    · intro ch m
      simp only [List.mem_append, List.mem_cons] at m
      rcases m with m | rfl | m | rfl | m | rfl | m | rfl | m | rfl | m
      · exact (he ch m).2
      · decide
      · exact (ht ch m).2
      · decide
      · exact (hc ch m).2
      · decide
      · exact (repr_ne_tab_newline a ch m).2
      · decide
      · exact (repr_ne_tab_newline b ch m).2
      · decide
      · exact (repr_ne_tab_newline c ch m).2
    · have s6 : splitOnChar '\t' (Nat.repr c).data = [(Nat.repr c).data] :=
        splitOnChar_single _ _ hrc
      have s5 := splitOnChar_field '\t' (Nat.repr b).data _ _ _ hrb s6
      have s4 := splitOnChar_field '\t' (Nat.repr a).data _ _ _ hra s5
      have s3 := splitOnChar_field '\t' codelength.data _ _ _ htc s4
      have s2 := splitOnChar_field '\t' tag.data _ _ _ htt s3
      exact splitOnChar_field '\t' elapsed.data _ _ _ hte s2

/-- Claim C6 amended witness: a concrete tag-only record appends exactly the
tag and a newline, and the tag is a single tab-field. -/
theorem C6_benchmark_amended_witness :
    (Logger.benchmark true ⟨true, true, ""⟩ "0.5" "tag" "3.14" 5 4 2 true).contents.data
      = "tag".data ++ ['\n']
    ∧ (∀ ch ∈ ("tag" : String).data, ch ≠ '\n')
    ∧ splitOnChar '\t' "tag".data = ["tag".data] :=
  (C6_benchmark_amended true ⟨true, true, ""⟩ "0.5" "tag" "3.14" 5 4 2 rfl rfl
    (by decide) (by decide) (by decide)).1

end InfomapLogger
